import Mathlib

/-!
Verification of the snakemq_pubsub core (`snakemq_pubsub/__init__.py`).

The broker's command handling (`Broker.on_recv`), the class-level registry
`Broker.channels`, the `Publisher.publish` encoder and the `Subscriber`
client state machine are shallowly embedded here.  Python strings are
modelled as `List Char`; Python `dict` becomes an insertion-ordered
association list with first-match lookup and update; Python `set` becomes a
duplicate-free `List` with insertion-order iteration.  Python exceptions
(`set.remove` raising `KeyError`) are made explicit in the result types.
-/

set_option autoImplicit false

/-- Python strings, modelled as lists of characters. -/
abbrev PyStr := List Char

/-- Python `KeyError`, the only exception the embedded code can raise. -/
inductive PyErr where
  | keyError
  deriving DecidableEq, Repr

/-- `str.split(sep)` for a one-character separator, Python semantics:
empty fields between consecutive separators are kept, `"".split(" ") == [""]`. -/
def splitCh (sep : Char) : PyStr → List PyStr
  | [] => [[]]
  | c :: rest =>
    if c = sep then [] :: splitCh sep rest
    else
      match splitCh sep rest with
      | [] => [[c]]
      | t :: ts => (c :: t) :: ts

/-- `sep.join(parts)` for a one-character separator. -/
def joinCh (sep : Char) : List PyStr → PyStr
  | [] => []
  | [x] => x
  | x :: xs => x ++ sep :: joinCh sep xs

/-- Python `set.add`: insert if absent, keep iteration order otherwise. -/
def setAdd (s : List PyStr) (x : PyStr) : List PyStr :=
  if x ∈ s then s else s ++ [x]

/-- The broker registry: `Broker.channels`, a Python dict mapping a channel
name to the set of subscriber identities, modelled as an insertion-ordered
association list. -/
abbrev Registry := List (PyStr × List PyStr)

/-- Python `d[k]` / `k in d`: first-match lookup in the ordered dict. -/
def dictGet? : Registry → PyStr → Option (List PyStr)
  | [], _ => none
  | (k, v) :: rest, ch => if k = ch then some v else dictGet? rest ch

/-- Python `d[k] = v`: replace the value at an existing key in place,
append a fresh key at the end (insertion order). -/
def dictSet : Registry → PyStr → List PyStr → Registry
  | [], ch, s => [(ch, s)]
  | (k, v) :: rest, ch, s =>
    if k = ch then (k, s) :: rest else (k, v) :: dictSet rest ch s

/-- The subscriber set of a channel, empty when the channel has no entry. -/
def subsOf (r : Registry) (ch : PyStr) : List PyStr :=
  (dictGet? r ch).getD []

/-- One step of the SUBSCRIBE loop (`__init__.py` lines 47-49):
`if channel not in self.channels: self.channels[channel] = set()` followed by
`self.channels[channel].add(ident)`. -/
def subscribeOne (r : Registry) (ch : PyStr) (ident : PyStr) : Registry :=
  match dictGet? r ch with
  | none => dictSet r ch [ident]
  | some s => dictSet r ch (setAdd s ident)

/-- Observable outcome of one `Broker.on_recv` call: the registry after the
call, the messages handed to `self.messaging.send_message` in order, and the
exception that escaped the handler, if any. -/
structure RecvResult where
  registry : Registry
  sends : List (PyStr × PyStr)
  err : Option PyErr
  deriving DecidableEq, Repr

/-- The UNSUBSCRIBE loop (`__init__.py` lines 51-56): for each argument, skip
channels with no entry, otherwise `self.channels[channel].remove(ident)` —
Python `set.remove` raises `KeyError` when `ident` is absent, aborting the
loop with the removals made so far already applied. -/
def unsubLoop (r : Registry) (ident : PyStr) : List PyStr → RecvResult
  | [] => ⟨r, [], none⟩
  | ch :: rest =>
    match dictGet? r ch with
    | none => unsubLoop r ident rest
    | some s =>
      if ident ∈ s then unsubLoop (dictSet r ch (s.erase ident)) ident rest
      else ⟨r, [], some .keyError⟩

/-- `Broker.on_recv` (`__init__.py` lines 39-66), for a message already
decoded to text.  Dispatch is by `str.startswith` on the three verbs, in
source order; `msg_split = msg_text.split(" ")`; the SUBSCRIBE and
UNSUBSCRIBE loops skip index 0; PUBLISH requires `len(msg_split) >= 3`,
takes `msg_split[1]` as the channel and `" ".join(msg_split[2:])` as the
payload, and sends it once to every identity in the channel's set. -/
def on_recv (r : Registry) (ident : PyStr) (text : PyStr) : RecvResult :=
  if ("SUBSCRIBE ".toList).isPrefixOf text then
    ⟨((splitCh ' ' text).drop 1).foldl (fun acc ch => subscribeOne acc ch ident) r,
      [], none⟩
  else if ("UNSUBSCRIBE ".toList).isPrefixOf text then
    unsubLoop r ident ((splitCh ' ' text).drop 1)
  else if ("PUBLISH ".toList).isPrefixOf text then
    match splitCh ' ' text with
    | _ :: ch :: rest1 :: restN =>
      match dictGet? r ch with
      | none => ⟨r, [], none⟩
      | some s => ⟨r, s.map (fun q => (q, joinCh ' ' (rest1 :: restN))), none⟩
    | _ => ⟨r, [], none⟩
  else ⟨r, [], none⟩

/-- The transport events a `snakemq.link.Link` can report to its owner. -/
inductive BrokerEvent where
  | msgRecv (sender : PyStr) (payload : PyStr)
  | msgDrop (recipient : PyStr) (payload : PyStr)
  | peerConnected (peer : PyStr)
  | peerDisconnected (peer : PyStr)

/-- The broker's reaction to one transport event, exactly as wired up by
`Broker.__init__` (`__init__.py` lines 29-37): `on_message_recv` is handled
by `on_recv`, `on_message_drop` by `on_drop` (a `pass`), and no handler at
all is registered for connect or disconnect, so those events leave the
registry untouched. -/
def handleEvent (r : Registry) : BrokerEvent → RecvResult
  | .msgRecv sender payload => on_recv r sender payload
  | .msgDrop _ _ => ⟨r, [], none⟩
  | .peerConnected _ => ⟨r, [], none⟩
  | .peerDisconnected _ => ⟨r, [], none⟩

/-- The process-wide Python state relevant to `Broker`: the single class
attribute `Broker.channels` (`__init__.py` line 27). -/
structure PyWorld where
  classChannels : Registry
  deriving DecidableEq, Repr

/-- One `Broker` instance.  `__init__` (`__init__.py` lines 29-37) stores the
identity but never assigns `self.channels`, so the instance has no `channels`
attribute of its own. -/
structure BrokerInst where
  broker_identity : PyStr
  deriving DecidableEq, Repr

/-- Python attribute lookup for `self.channels`: the instance has no such
attribute, so it falls back to the class attribute shared by all brokers. -/
def channelsOf (w : PyWorld) (_b : BrokerInst) : Registry :=
  w.classChannels

/-- `Broker.__init__` as far as the registry is concerned: it creates the
instance and leaves the class attribute exactly as it was. -/
def brokerInit (w : PyWorld) (ident : PyStr) : PyWorld × BrokerInst :=
  (w, ⟨ident⟩)

/-- `on_recv` invoked through a particular instance: reads and mutates the
shared class-level dict. -/
def brokerRecvVia (w : PyWorld) (b : BrokerInst) (sender text : PyStr) :
    PyWorld × RecvResult :=
  let res := on_recv (channelsOf w b) sender text
  (⟨res.registry⟩, res)

/-- `Publisher.publish` (`__init__.py` lines 100-105): the command line
`"PUBLISH {channel} {message}"` handed to the transport. -/
def Publisher.publish (channel message : PyStr) : PyStr :=
  "PUBLISH ".toList ++ (channel ++ ' ' :: message)

/-- The client-side state of a `Subscriber`: its `self.subscriptions` set. -/
structure SubState where
  subscriptions : List PyStr
  deriving DecidableEq, Repr

/-- `Subscriber.subscribe` (`__init__.py` lines 135-141): send the command
`"SUBSCRIBE {channel}"`, then add the channel to `self.subscriptions`.
Returns the new state and the commands handed to the transport. -/
def Subscriber.subscribe (st : SubState) (channel : PyStr) :
    SubState × List PyStr :=
  (⟨setAdd st.subscriptions channel⟩, ["SUBSCRIBE ".toList ++ channel])

/-- `Subscriber.unsubscribe` (`__init__.py` lines 143-148): the command
`"UNSUBSCRIBE {channel}"` is handed to `send_message` on line 147 before
`self.subscriptions.remove(channel)` runs on line 148, so the command is
sent even when `remove` raises `KeyError`. -/
def Subscriber.unsubscribe (st : SubState) (channel : PyStr) :
    SubState × List PyStr × Option PyErr :=
  if channel ∈ st.subscriptions then
    (⟨st.subscriptions.erase channel⟩, ["UNSUBSCRIBE ".toList ++ channel], none)
  else
    (st, ["UNSUBSCRIBE ".toList ++ channel], some .keyError)

/-- One iteration of the `on_connect` loop: `self.subscribe(channel)`,
accumulating the commands handed to the transport. -/
def onConnectStep (acc : SubState × List PyStr) (ch : PyStr) :
    SubState × List PyStr :=
  let step := Subscriber.subscribe acc.1 ch
  (step.1, acc.2 ++ step.2)

/-- `Subscriber.on_connect` (`__init__.py` lines 150-153): call
`self.subscribe(channel)` once per channel already in `self.subscriptions`.
Returns the final state and every command handed to the transport. -/
def Subscriber.on_connect (st : SubState) : SubState × List PyStr :=
  st.subscriptions.foldl onConnectStep (st, [])

/-- The broker handling a sequence of command payloads from one sender. -/
def handleCmds (r : Registry) (ident : PyStr) (cmds : List PyStr) : Registry :=
  cmds.foldl (fun acc cmd => (on_recv acc ident cmd).registry) r

/-- The registry invariant corresponding to Python sets: every channel's
subscriber list is duplicate-free. -/
abbrev RegNodup (r : Registry) : Prop := ∀ e ∈ r, (e.2 : List PyStr).Nodup

/-! ### Lemmas about the string primitives -/

theorem splitCh_ne_nil (sep : Char) (l : PyStr) : splitCh sep l ≠ [] := by
  induction l with
  | nil => simp [splitCh]
  | cons c rest ih =>
    by_cases h : c = sep
    · simp [splitCh, h]
    · cases hs : splitCh sep rest with
      | nil => exact absurd hs ih
      | cons t ts => simp [splitCh, h, hs]

theorem joinCh_splitCh (sep : Char) (l : PyStr) :
    joinCh sep (splitCh sep l) = l := by
  induction l with
  | nil => rfl
  | cons c rest ih =>
    cases hs : splitCh sep rest with
    | nil => exact absurd hs (splitCh_ne_nil sep rest)
    | cons t ts =>
      rw [hs] at ih
      by_cases h : c = sep
      · subst h
        simp only [splitCh, if_pos rfl, hs, joinCh, List.nil_append]
        rw [← hs] at ih ⊢
        rw [ih]
      · cases ts with
        | nil =>
          simp only [splitCh, if_neg h, hs, joinCh] at ih ⊢
          rw [ih]
        | cons u us =>
          simp only [splitCh, if_neg h, hs, joinCh, List.cons_append] at ih ⊢
          rw [ih]

theorem splitCh_cons_of_ne (sep a : Char) (l : PyStr) (ha : a ≠ sep)
    (t : PyStr) (ts : List PyStr) (hs : splitCh sep l = t :: ts) :
    splitCh sep (a :: l) = (a :: t) :: ts := by
  simp [splitCh, if_neg ha, hs]

theorem splitCh_append_cons (sep : Char) (l1 l2 : PyStr) (h : sep ∉ l1) :
    splitCh sep (l1 ++ sep :: l2) = l1 :: splitCh sep l2 := by
  induction l1 with
  | nil => simp [splitCh]
  | cons a l1 ih =>
    have ha : a ≠ sep := by rintro rfl; exact h (List.mem_cons_self ..)
    have h1 : sep ∉ l1 := fun hm => h (List.mem_cons_of_mem _ hm)
    have e : (a :: l1) ++ sep :: l2 = a :: (l1 ++ sep :: l2) := rfl
    rw [e, splitCh_cons_of_ne sep a _ ha _ _ (ih h1)]

theorem splitCh_no_sep (sep : Char) (l : PyStr) (h : sep ∉ l) :
    splitCh sep l = [l] := by
  induction l with
  | nil => rfl
  | cons a l ih =>
    have ha : a ≠ sep := by rintro rfl; exact h (List.mem_cons_self ..)
    have h1 : sep ∉ l := fun hm => h (List.mem_cons_of_mem _ hm)
    simp [splitCh, if_neg ha, ih h1]

theorem isPrefixOf_self_append (v l : List Char) :
    v.isPrefixOf (v ++ l) = true := by
  induction v with
  | nil => simp
  | cons a as ih => simp [List.isPrefixOf_cons₂, ih]

theorem sub_not_pre_unsub (l : PyStr) :
    ("SUBSCRIBE ".toList).isPrefixOf ("UNSUBSCRIBE ".toList ++ l) = false := rfl

theorem sub_not_pre_pub (l : PyStr) :
    ("SUBSCRIBE ".toList).isPrefixOf ("PUBLISH ".toList ++ l) = false := rfl

theorem unsub_not_pre_pub (l : PyStr) :
    ("UNSUBSCRIBE ".toList).isPrefixOf ("PUBLISH ".toList ++ l) = false := rfl

theorem mem_setAdd (s : List PyStr) (x y : PyStr) :
    x ∈ setAdd s y ↔ x ∈ s ∨ x = y := by
  by_cases h : y ∈ s
  · simp only [setAdd, if_pos h]
    constructor
    · exact Or.inl
    · rintro (hx | rfl)
      · exact hx
      · exact h
  · simp [setAdd, if_neg h]

theorem nodup_setAdd (s : List PyStr) (x : PyStr) (h : s.Nodup) :
    (setAdd s x).Nodup := by
  by_cases hx : x ∈ s
  · simpa [setAdd, if_pos hx]
  · rw [setAdd, if_neg hx]
    refine h.append (List.nodup_singleton x) ?_
    intro a ha hb
    rw [List.mem_singleton] at hb
    subst hb
    exact hx ha

/-! ### Lemmas about the dict model -/

theorem dictGet_dictSet (r : Registry) (k k' : PyStr) (v : List PyStr) :
    dictGet? (dictSet r k v) k' = if k' = k then some v else dictGet? r k' := by
  induction r with
  | nil =>
    by_cases h : k' = k
    · subst h
      simp [dictSet, dictGet?]
    · have h2 : ¬k = k' := fun hh => h hh.symm
      simp [dictSet, dictGet?, h, h2]
  | cons e rest ih =>
    obtain ⟨ek, ev⟩ := e
    by_cases hk : ek = k
    · subst hk
      by_cases h : k' = ek
      · subst h
        simp [dictSet, dictGet?]
      · have h2 : ¬ek = k' := fun hh => h hh.symm
        simp [dictSet, dictGet?, h, h2]
    · by_cases h : ek = k'
      · subst h
        have hk' : ¬ek = k := hk
        have hk2 : ¬k = ek := fun hh => hk hh.symm
        simp [dictSet, dictGet?, hk', hk2]
      · simp [dictSet, dictGet?, hk, h, ih]

theorem subsOf_subscribeOne (r : Registry) (ch ch' p : PyStr) :
    subsOf (subscribeOne r ch p) ch'
      = if ch' = ch then setAdd (subsOf r ch) p else subsOf r ch' := by
  unfold subscribeOne
  cases hd : dictGet? r ch with
  | none =>
    by_cases h : ch' = ch
    · simp [subsOf, dictGet_dictSet, h, hd, setAdd]
    · simp [subsOf, dictGet_dictSet, h]
  | some s =>
    by_cases h : ch' = ch
    · simp [subsOf, dictGet_dictSet, h, hd]
    · simp [subsOf, dictGet_dictSet, h]

theorem mem_subsOf_subscribeOne (r : Registry) (ch ch' p : PyStr) :
    p ∈ subsOf (subscribeOne r ch p) ch' ↔ p ∈ subsOf r ch' ∨ ch' = ch := by
  rw [subsOf_subscribeOne]
  by_cases h : ch' = ch
  · subst h
    simp [mem_setAdd]
  · simp [h]

/-! ### How `on_recv` handles each well-formed command -/

theorem iteTT {α : Sort _} (a b : α) : (if (true = true) then a else b) = a :=
  if_pos rfl

theorem iteFT {α : Sort _} (a b : α) : (if (false = true) then a else b) = b :=
  if_neg Bool.false_ne_true

theorem on_recv_sub (r : Registry) (p ch : PyStr) (h : ' ' ∉ ch) :
    on_recv r p ("SUBSCRIBE ".toList ++ ch) = ⟨subscribeOne r ch p, [], none⟩ := by
  have hsplit : splitCh ' ' ("SUBSCRIBE ".toList ++ ch)
      = ["SUBSCRIBE".toList, ch] := by
    rw [show ("SUBSCRIBE ".toList ++ ch) = "SUBSCRIBE".toList ++ ' ' :: ch from rfl,
      splitCh_append_cons _ _ _ (by decide), splitCh_no_sep _ _ h]
  unfold on_recv
  rw [isPrefixOf_self_append, iteTT, hsplit]
  rfl

theorem on_recv_unsub (r : Registry) (p ch : PyStr) (h : ' ' ∉ ch) :
    on_recv r p ("UNSUBSCRIBE ".toList ++ ch) = unsubLoop r p [ch] := by
  have hsplit : splitCh ' ' ("UNSUBSCRIBE ".toList ++ ch)
      = ["UNSUBSCRIBE".toList, ch] := by
    rw [show ("UNSUBSCRIBE ".toList ++ ch) = "UNSUBSCRIBE".toList ++ ' ' :: ch from rfl,
      splitCh_append_cons _ _ _ (by decide), splitCh_no_sep _ _ h]
  unfold on_recv
  rw [sub_not_pre_unsub, iteFT, isPrefixOf_self_append, iteTT, hsplit]
  rfl

theorem on_recv_pub (r : Registry) (p ch msg : PyStr) (h : ' ' ∉ ch) :
    on_recv r p (Publisher.publish ch msg)
      = ⟨r, (subsOf r ch).map (fun q => (q, msg)), none⟩ := by
  obtain ⟨m1, ms, hms⟩ : ∃ m1 ms, splitCh ' ' msg = m1 :: ms := by
    cases hs : splitCh ' ' msg with
    | nil => exact absurd hs (splitCh_ne_nil ' ' msg)
    | cons t ts => exact ⟨t, ts, rfl⟩
  have hsplit : splitCh ' ' ("PUBLISH ".toList ++ (ch ++ ' ' :: msg))
      = "PUBLISH".toList :: ch :: m1 :: ms := by
    rw [show ("PUBLISH ".toList ++ (ch ++ ' ' :: msg))
        = "PUBLISH".toList ++ ' ' :: (ch ++ ' ' :: msg) from rfl,
      splitCh_append_cons _ _ _ (by decide), splitCh_append_cons _ _ _ h, hms]
  have hjoin : joinCh ' ' (m1 :: ms) = msg := by
    rw [← hms]
    exact joinCh_splitCh ' ' msg
  show on_recv r p ("PUBLISH ".toList ++ (ch ++ ' ' :: msg)) = _
  unfold on_recv
  rw [sub_not_pre_pub, iteFT, unsub_not_pre_pub, iteFT,
    isPrefixOf_self_append, iteTT, hsplit]
  cases hd : dictGet? r ch with
  | none => simp [subsOf, hd]
  | some s => simp [subsOf, hd, hjoin]

/-! ### Claims -/

/-- C1 counterexample: the claim says handling `UNSUBSCRIBE c` from a peer
not subscribed to `c` leaves the registry unchanged and raises no error.  On
the code, when the channel `c` exists (here: `q` subscribed to it) but the
sender `p` is not in its set, `set.remove` raises `KeyError`. -/
theorem C1_counterexample :
    (on_recv (on_recv [] "q".toList "SUBSCRIBE c".toList).registry
        "p".toList "UNSUBSCRIBE c".toList).err = some PyErr.keyError := by decide

/-- C1 (amended): the registry remove performed for `UNSUBSCRIBE c` is a
no-op only when the channel `c` has no entry; when `c` has an entry whose
set does not contain the sender `p`, `set.remove` raises `KeyError` (the
registry is left as it was, nothing is sent, and the exception escapes
`on_recv`). -/
theorem C1_unsubscribe_amended (r : Registry) (p ch : PyStr) (hch : ' ' ∉ ch) :
    (dictGet? r ch = none →
      on_recv r p ("UNSUBSCRIBE ".toList ++ ch) = ⟨r, [], none⟩) ∧
    (∀ s, dictGet? r ch = some s → p ∉ s →
      on_recv r p ("UNSUBSCRIBE ".toList ++ ch) = ⟨r, [], some .keyError⟩) := by
  constructor
  · intro hd
    rw [on_recv_unsub r p ch hch]
    simp [unsubLoop, hd]
  · intro s hd hp
    rw [on_recv_unsub r p ch hch]
    simp [unsubLoop, hd, hp]

/-- C1 witness: instantiating the amended claim at a registry where channel
`c` holds only `q` and the sender is `p`. -/
theorem C1_witness :
    (' ' ∉ "c".toList) ∧
    on_recv [("c".toList, ["q".toList])] "p".toList
        ("UNSUBSCRIBE ".toList ++ "c".toList)
      = ⟨[("c".toList, ["q".toList])], [], some PyErr.keyError⟩ :=
  ⟨by decide,
    (C1_unsubscribe_amended [("c".toList, ["q".toList])] "p".toList "c".toList
        (by decide)).2 ["q".toList] (by decide) (by decide)⟩

/-- C2: the claim (backed by `test_subscriber_disconnect`, which expects the
broker's channel subscriptions to be cleaned up) says a disconnected peer is
removed from every channel's subscriber set.  `Broker.__init__` registers no
disconnect handler at all, so after peer `p` subscribed to `c` and the
transport reports `p` disconnected, `p` is still in `c`'s subscriber set. -/
theorem C2_disconnect_no_cleanup :
    "p".toList ∈ subsOf
      (handleEvent
        (on_recv [] "p".toList "SUBSCRIBE c".toList).registry
        (.peerDisconnected "p".toList)).registry
      "c".toList := by decide

/-- C3 counterexample: starting from a fresh process state, broker `b1` is
constructed and handles `SUBSCRIBE c` from `p`; a second broker `b2`
constructed afterwards sees `p` subscribed to `c` through its own
`self.channels` — the class-level registry is shared, so a newly constructed
Broker does not start with an empty mapping and mutations through one
instance are visible through another. -/
theorem C3_counterexample :
    let w0 : PyWorld := ⟨[]⟩
    let init1 := brokerInit w0 "b1".toList
    let w1 := (brokerRecvVia init1.1 init1.2 "p".toList "SUBSCRIBE c".toList).1
    let init2 := brokerInit w1 "b2".toList
    "p".toList ∈ subsOf (channelsOf init2.1 init2.2) "c".toList := by decide

/-- C3 (amended): `Broker.channels` is class-level state shared by every
instance: `__init__` leaves the class attribute untouched (a new broker
starts with whatever the class dict already holds, empty only in a fresh
process), and a mutation made through any one instance is what every other
instance reads. -/
theorem C3_shared_registry_amended (w : PyWorld) (i1 i2 sender text : PyStr) :
    (∀ ident, channelsOf (brokerInit w ident).1 (brokerInit w ident).2
        = w.classChannels) ∧
    channelsOf (brokerRecvVia w ⟨i1⟩ sender text).1 ⟨i2⟩
      = (on_recv w.classChannels sender text).registry :=
  ⟨fun _ => rfl, rfl⟩

/-- C5 counterexample: the claim says a payload with an unrecognized verb
yields a malformed-command error that is observably reported.  On the code,
`on_recv` for `"GARBAGE hello"` returns with the registry unchanged, nothing
sent and no error raised or reported — the text is silently swallowed. -/
theorem C5_counterexample :
    on_recv [("c".toList, ["q".toList])] "p".toList "GARBAGE hello".toList
      = ⟨[("c".toList, ["q".toList])], [], none⟩ := by decide

/-- C5 (amended): a payload that starts with none of the three recognized
verbs, and a PUBLISH whose line splits into fewer than 3 fields, are
silently ignored: the registry is unchanged, nothing is sent, no error is
raised, and nothing is reported — the broker loop does not crash, but the
condition is not observable. -/
theorem C5_silent_ignore_amended (r : Registry) (p text : PyStr)
    (h1 : ("SUBSCRIBE ".toList).isPrefixOf text = false)
    (h2 : ("UNSUBSCRIBE ".toList).isPrefixOf text = false)
    (h3 : ("PUBLISH ".toList).isPrefixOf text = false) :
    on_recv r p text = ⟨r, [], none⟩ ∧
    (∀ rest : PyStr, (splitCh ' ' ("PUBLISH ".toList ++ rest)).length < 3 →
      on_recv r p ("PUBLISH ".toList ++ rest) = ⟨r, [], none⟩) := by
  constructor
  · unfold on_recv
    rw [h1, iteFT, h2, iteFT, h3, iteFT]
  · intro rest hlen
    have hs : splitCh ' ' ("PUBLISH ".toList ++ rest)
        = "PUBLISH".toList :: splitCh ' ' rest := by
      rw [show ("PUBLISH ".toList ++ rest) = "PUBLISH".toList ++ ' ' :: rest from rfl,
        splitCh_append_cons _ _ _ (by decide)]
    cases hts : splitCh ' ' rest with
    | nil => exact absurd hts (splitCh_ne_nil ' ' rest)
    | cons t ts =>
      cases ts with
      | nil =>
        unfold on_recv
        rw [sub_not_pre_pub, iteFT, unsub_not_pre_pub, iteFT,
          isPrefixOf_self_append, iteTT, hs, hts]
      | cons u us =>
        exfalso
        rw [hs, hts] at hlen
        simp [List.length_cons] at hlen
        omega

/-- C5 witness: the amended claim applied to the unrecognized line
`"GARBAGE hello"` and to the short command `"PUBLISH c"`. -/
theorem C5_witness :
    (("SUBSCRIBE ".toList).isPrefixOf "GARBAGE hello".toList = false) ∧
    on_recv [] "p".toList "GARBAGE hello".toList = ⟨[], [], none⟩ ∧
    on_recv [] "p".toList ("PUBLISH ".toList ++ "c".toList) = ⟨[], [], none⟩ := by
  refine ⟨by decide, ?_, ?_⟩
  · exact (C5_silent_ignore_amended [] "p".toList "GARBAGE hello".toList
      (by decide) (by decide) (by decide)).1
  · exact (C5_silent_ignore_amended [] "p".toList "GARBAGE hello".toList
      (by decide) (by decide) (by decide)).2 "c".toList (by decide)

/-- C10: for a channel not in the subscriber's desired set,
`Subscriber.unsubscribe` hands the `UNSUBSCRIBE` command to the transport
(line 147) and then `self.subscriptions.remove(channel)` (line 148) raises
`KeyError`: the command is sent even though the operation fails, and the
desired set is unchanged. -/
theorem C10_unsubscribe_sends_then_raises (st : SubState) (ch : PyStr)
    (h : ch ∉ st.subscriptions) :
    Subscriber.unsubscribe st ch
      = (st, ["UNSUBSCRIBE ".toList ++ ch], some PyErr.keyError) := by
  simp [Subscriber.unsubscribe, h]

/-- C10 witness: unsubscribing from `"a"` with an empty desired set. -/
theorem C10_witness :
    ("a".toList ∉ (⟨[]⟩ : SubState).subscriptions) ∧
    Subscriber.unsubscribe ⟨[]⟩ "a".toList
      = (⟨[]⟩, ["UNSUBSCRIBE ".toList ++ "a".toList], some PyErr.keyError) :=
  ⟨by decide, C10_unsubscribe_sends_then_raises ⟨[]⟩ "a".toList (by decide)⟩

/-- C4 counterexample: the claim says a run of multiple consecutive spaces
inside the published message collapses to a single space.  On the code,
`"a  b"` (two spaces) is forwarded verbatim: `str.split(" ")` keeps the
empty field between the two spaces and `" ".join` restores it, so the
delivered payload is `"a  b"`, not `"a b"`. -/
theorem C4_counterexample :
    (on_recv [("c".toList, ["q".toList])] "p".toList
        (Publisher.publish "c".toList "a  b".toList)).sends
      = [("q".toList, "a  b".toList)] ∧
    "a  b".toList ≠ "a b".toList := by decide

/-- C4 (amended): decoding a PUBLISH command as encoded by
`Publisher.publish` forwards to each subscriber exactly the original message
text: `" ".join(msg.split(" "))` is the identity, so multi-word payloads are
preserved losslessly, including runs of consecutive spaces. -/
theorem C4_payload_amended (r : Registry) (p ch msg : PyStr) (hch : ' ' ∉ ch) :
    (on_recv r p (Publisher.publish ch msg)).sends
      = (subsOf r ch).map (fun q => (q, msg)) ∧
    joinCh ' ' (splitCh ' ' msg) = msg :=
  ⟨by rw [on_recv_pub r p ch msg hch], joinCh_splitCh ' ' msg⟩

/-- C4 witness: publishing the double-spaced message `"a  b"` on channel
`c`, whose only subscriber is `q`, delivers `"a  b"` unchanged. -/
theorem C4_witness :
    (' ' ∉ "c".toList) ∧
    (on_recv [("c".toList, ["q".toList])] "p".toList
        (Publisher.publish "c".toList "a  b".toList)).sends
      = [("q".toList, "a  b".toList)] := by
  refine ⟨by decide, ?_⟩
  have h := (C4_payload_amended [("c".toList, ["q".toList])] "p".toList
      "c".toList "a  b".toList (by decide)).1
  rw [h]
  decide

/-- Counting a peer's deliveries inside a fan-out list. -/
theorem count_pair_map (s : List PyStr) (q msg : PyStr) :
    ((s.map (fun x => (x, msg))).count (q, msg)) = s.count q := by
  induction s with
  | nil => rfl
  | cons a s ih =>
    simp [List.count_cons, ih, Prod.ext_iff]

/-- Occurrence count of an element in a duplicate-free list. -/
theorem count_nodup (l : List PyStr) (q : PyStr) (h : l.Nodup) :
    l.count q = if q ∈ l then 1 else 0 := by
  induction l with
  | nil => simp
  | cons a l ih =>
    rcases List.nodup_cons.mp h with ⟨ha, hl⟩
    by_cases hq : q = a
    · subst hq
      simp [List.count_cons, ih hl, ha]
    · simp [List.count_cons, ih hl, hq]

/-- C6: handling one PUBLISH on a channel sends the payload exactly once to
each peer in that channel's subscriber set and to nobody else; in
particular the sending peer receives the message iff it is itself in the
set (instantiate `q` with the sender). -/
theorem C6_fanout (r : Registry) (p ch msg : PyStr) (hch : ' ' ∉ ch)
    (hnd : (subsOf r ch).Nodup) :
    ∀ q : PyStr,
      ((on_recv r p (Publisher.publish ch msg)).sends.count (q, msg)
        = if q ∈ subsOf r ch then 1 else 0) ∧
      (∀ pay, (q, pay) ∈ (on_recv r p (Publisher.publish ch msg)).sends →
        pay = msg ∧ q ∈ subsOf r ch) := by
  intro q
  rw [on_recv_pub r p ch msg hch]
  constructor
  · rw [count_pair_map]
    exact count_nodup _ _ hnd
  · intro pay hmem
    simp only [List.mem_map] at hmem
    obtain ⟨x, hx, hxe⟩ := hmem
    obtain ⟨e1, e2⟩ := Prod.mk.injEq .. ▸ hxe
    exact ⟨e2.symm, e1 ▸ hx⟩

/-- C6 witness: channel `c` has the two subscribers `q1, q2`; a publish
from `p` delivers exactly once to `q1`. -/
theorem C6_witness :
    ((subsOf [("c".toList, ["q1".toList, "q2".toList])] "c".toList).Nodup) ∧
    (on_recv [("c".toList, ["q1".toList, "q2".toList])] "p".toList
        (Publisher.publish "c".toList "m".toList)).sends.count
        ("q1".toList, "m".toList) = 1 := by
  refine ⟨by decide, ?_⟩
  have h := (C6_fanout [("c".toList, ["q1".toList, "q2".toList])] "p".toList
      "c".toList "m".toList (by decide) (by decide) "q1".toList).1
  rw [h]
  decide

theorem dictGet_some_mem (r : Registry) (k : PyStr) (s : List PyStr)
    (h : dictGet? r k = some s) : (k, s) ∈ r := by
  induction r with
  | nil => exact absurd h (by simp [dictGet?])
  | cons e rest ih =>
    obtain ⟨ek, ev⟩ := e
    by_cases hk : ek = k
    · subst hk
      simp [dictGet?] at h
      subst h
      exact List.mem_cons_self ..
    · simp [dictGet?, hk] at h
      exact List.mem_cons_of_mem _ (ih h)

theorem regNodup_subsOf (r : Registry) (ch : PyStr) (h : RegNodup r) :
    (subsOf r ch).Nodup := by
  unfold subsOf
  cases hd : dictGet? r ch with
  | none => simp
  | some s => exact h (ch, s) (dictGet_some_mem r ch s hd)

theorem regNodup_dictSet (r : Registry) (k : PyStr) (v : List PyStr)
    (h : RegNodup r) (hv : v.Nodup) : RegNodup (dictSet r k v) := by
  induction r with
  | nil =>
    intro e he
    simp [dictSet] at he
    subst he
    exact hv
  | cons e0 rest ih =>
    obtain ⟨ek, ev⟩ := e0
    by_cases hk : ek = k
    · subst hk
      intro e he
      simp only [dictSet, if_pos rfl] at he
      rcases List.mem_cons.mp he with he1 | he2
      · subst he1
        exact hv
      · exact h e (List.mem_cons_of_mem _ he2)
    · intro e he
      simp only [dictSet, if_neg hk] at he
      rcases List.mem_cons.mp he with he1 | he2
      · subst he1
        exact h (ek, ev) (List.mem_cons_self ..)
      · exact ih (fun e' he' => h e' (List.mem_cons_of_mem _ he')) e he2

theorem regNodup_subscribeOne (r : Registry) (ch p : PyStr) (h : RegNodup r) :
    RegNodup (subscribeOne r ch p) := by
  unfold subscribeOne
  cases hd : dictGet? r ch with
  | none => exact regNodup_dictSet r ch [p] h (List.nodup_singleton p)
  | some s =>
    exact regNodup_dictSet r ch (setAdd s p) h
      (nodup_setAdd s p (h (ch, s) (dictGet_some_mem r ch s hd)))

theorem regNodup_foldl_subscribe (args : List PyStr) (r : Registry) (p : PyStr)
    (h : RegNodup r) :
    RegNodup (args.foldl (fun acc ch => subscribeOne acc ch p) r) := by
  induction args generalizing r with
  | nil => exact h
  | cons a args ih => exact ih _ (regNodup_subscribeOne r a p h)

theorem regNodup_unsubLoop (args : List PyStr) (r : Registry) (p : PyStr)
    (h : RegNodup r) : RegNodup (unsubLoop r p args).registry := by
  induction args generalizing r with
  | nil => exact h
  | cons a args ih =>
    unfold unsubLoop
    cases hd : dictGet? r a with
    | none => exact ih _ h
    | some s =>
      show RegNodup (if p ∈ s then unsubLoop (dictSet r a (s.erase p)) p args
          else (⟨r, [], some PyErr.keyError⟩ : RecvResult)).registry
      by_cases hp : p ∈ s
      · rw [if_pos hp]
        exact ih _ (regNodup_dictSet r a (s.erase p) h
          ((h (a, s) (dictGet_some_mem r a s hd)).erase p))
      · rw [if_neg hp]
        exact h

theorem regNodup_on_recv (r : Registry) (i t : PyStr) (h : RegNodup r) :
    RegNodup (on_recv r i t).registry := by
  unfold on_recv
  split
  · exact regNodup_foldl_subscribe _ r i h
  · split
    · exact regNodup_unsubLoop _ r i h
    · split
      · split
        · split
          · exact h
          · exact h
        · exact h
      · exact h

/-- C8: handling `SUBSCRIBE c` from `p` twice leaves exactly one entry for
`p` in `c`'s subscriber set (`set.add` is idempotent), and handling any
inbound message preserves the invariant that no identity appears twice in
the same channel's set. -/
theorem C8_idempotent_add (r : Registry) (p ch : PyStr) (hch : ' ' ∉ ch)
    (h : RegNodup r) :
    ((subsOf (on_recv (on_recv r p ("SUBSCRIBE ".toList ++ ch)).registry p
        ("SUBSCRIBE ".toList ++ ch)).registry ch).count p = 1) ∧
    (∀ i t, RegNodup (on_recv r i t).registry) := by
  constructor
  · rw [on_recv_sub r p ch hch]
    rw [show (RecvResult.mk (subscribeOne r ch p) [] none).registry
        = subscribeOne r ch p from rfl]
    rw [on_recv_sub (subscribeOne r ch p) p ch hch]
    rw [show (RecvResult.mk (subscribeOne (subscribeOne r ch p) ch p) [] none).registry
        = subscribeOne (subscribeOne r ch p) ch p from rfl]
    rw [subsOf_subscribeOne, if_pos rfl, subsOf_subscribeOne, if_pos rfl]
    have h1 : (subsOf r ch).Nodup := regNodup_subsOf r ch h
    have hmem : p ∈ setAdd (subsOf r ch) p := (mem_setAdd _ _ _).mpr (Or.inr rfl)
    have e2 : setAdd (setAdd (subsOf r ch) p) p = setAdd (subsOf r ch) p := by
      rw [setAdd, if_pos hmem]
    rw [e2, count_nodup _ _ (nodup_setAdd _ _ h1), if_pos hmem]
  · intro i t
    exact regNodup_on_recv r i t h

/-- C8 witness: subscribing `p` to `c` twice starting from the empty
registry leaves a single entry for `p` under `c`. -/
theorem C8_witness :
    (' ' ∉ "c".toList) ∧ RegNodup ([] : Registry) ∧
    (subsOf (on_recv (on_recv [] "p".toList ("SUBSCRIBE ".toList ++ "c".toList)).registry
        "p".toList ("SUBSCRIBE ".toList ++ "c".toList)).registry
        "c".toList).count "p".toList = 1 := by
  refine ⟨by decide, by decide, ?_⟩
  exact (C8_idempotent_add [] "p".toList "c".toList (by decide) (by decide)).1

/-- `on_connect` iterates the (unchanged) desired set and emits one
`SUBSCRIBE` command per channel. -/
theorem onConnectStep_mem (s cs : List PyStr) (a : PyStr) (ha : a ∈ s) :
    onConnectStep ((⟨s⟩ : SubState), cs) a
      = (⟨s⟩, cs ++ ["SUBSCRIBE ".toList ++ a]) := by
  simp [onConnectStep, Subscriber.subscribe, setAdd, if_pos ha]

theorem on_connect_cmds (st : SubState) :
    Subscriber.on_connect st
      = (st, st.subscriptions.map (fun ch => "SUBSCRIBE ".toList ++ ch)) := by
  have gen : ∀ (l : List PyStr) (s : List PyStr) (cs : List PyStr),
      (∀ ch ∈ l, ch ∈ s) →
      l.foldl onConnectStep ((⟨s⟩ : SubState), cs)
        = (⟨s⟩, cs ++ l.map (fun ch => "SUBSCRIBE ".toList ++ ch)) := by
    intro l
    induction l with
    | nil =>
      intro s cs _
      simp
    | cons a l ih =>
      intro s cs h
      have ha : a ∈ s := h a (List.mem_cons_self ..)
      have hl : ∀ ch ∈ l, ch ∈ s := fun ch hc => h ch (List.mem_cons_of_mem _ hc)
      rw [List.foldl_cons, onConnectStep_mem s cs a ha, ih _ _ hl]
      simp
  unfold Subscriber.on_connect
  have := gen st.subscriptions st.subscriptions [] (fun _ hc => hc)
  simpa using this

/-- Feeding the broker per-channel `SUBSCRIBE` commands is the same as
folding the registry add over the channels. -/
theorem handleCmds_subCmds (l : List PyStr) (r : Registry) (id : PyStr)
    (h : ∀ ch ∈ l, ' ' ∉ ch) :
    handleCmds r id (l.map (fun ch => "SUBSCRIBE ".toList ++ ch))
      = l.foldl (fun acc ch => subscribeOne acc ch id) r := by
  induction l generalizing r with
  | nil => rfl
  | cons a l ih =>
    show handleCmds ((on_recv r id ("SUBSCRIBE ".toList ++ a)).registry) id
        (l.map (fun ch => "SUBSCRIBE ".toList ++ ch))
      = l.foldl (fun acc ch => subscribeOne acc ch id) (subscribeOne r a id)
    rw [on_recv_sub r id a (h a (List.mem_cons_self ..))]
    exact ih (subscribeOne r a id) (fun ch hc => h ch (List.mem_cons_of_mem _ hc))

theorem mem_fold_subscribe (l : List PyStr) (r : Registry) (id ch : PyStr) :
    id ∈ subsOf (l.foldl (fun acc c => subscribeOne acc c id) r) ch
      ↔ id ∈ subsOf r ch ∨ ch ∈ l := by
  induction l generalizing r with
  | nil => simp
  | cons a l ih =>
    simp only [List.foldl_cons, ih, mem_subsOf_subscribeOne, List.mem_cons]
    tauto

/-- C7 counterexample: with desired set `{x, y}` the `on_connect` resync
hands the transport two commands, `"SUBSCRIBE x"` and `"SUBSCRIBE y"` — not
one `SUBSCRIBE` command listing the whole desired set. -/
theorem C7_counterexample :
    ((Subscriber.on_connect ⟨["x".toList, "y".toList]⟩).2.length = 2) ∧
    (Subscriber.on_connect ⟨["x".toList, "y".toList]⟩).2
      = ["SUBSCRIBE x".toList, "SUBSCRIBE y".toList] := by decide

/-- C7 (amended): on the connected-to-broker event the Subscriber sends one
`SUBSCRIBE` command per channel of its desired set (the set itself is left
unchanged), and a broker that starts from an empty registry (as after a
restart) ends with that subscriber registered under exactly the desired
channels — no more, no less. -/
theorem C7_resync_amended (st : SubState) (id : PyStr)
    (hch : ∀ ch ∈ st.subscriptions, ' ' ∉ ch) :
    ((Subscriber.on_connect st).2
        = st.subscriptions.map (fun ch => "SUBSCRIBE ".toList ++ ch)) ∧
    (∀ ch, id ∈ subsOf (handleCmds [] id (Subscriber.on_connect st).2) ch
      ↔ ch ∈ st.subscriptions) := by
  have hc := on_connect_cmds st
  constructor
  · rw [hc]
  · intro ch
    rw [hc]
    show id ∈ subsOf (handleCmds [] id
        (st.subscriptions.map (fun ch => "SUBSCRIBE ".toList ++ ch))) ch
      ↔ ch ∈ st.subscriptions
    rw [handleCmds_subCmds _ _ _ hch, mem_fold_subscribe]
    simp [subsOf, dictGet?]

/-- C7 witness: desired set `{x, y}`, empty broker registry; after the
resync the subscriber `s1` is registered under `x`. -/
theorem C7_witness :
    (∀ ch ∈ (⟨["x".toList, "y".toList]⟩ : SubState).subscriptions, ' ' ∉ ch) ∧
    "s1".toList ∈ subsOf (handleCmds [] "s1".toList
        (Subscriber.on_connect ⟨["x".toList, "y".toList]⟩).2) "x".toList := by
  refine ⟨by decide, ?_⟩
  exact ((C7_resync_amended ⟨["x".toList, "y".toList]⟩ "s1".toList
      (by decide)).2 "x".toList).mpr (by decide)

